/-
Verification of the fin-dash price-history caching and scoring pipeline.

Shallow embedding of `backend/app/services/market_data.py` and
`backend/app/ml/agent.py`.  Conventions used throughout:

* Timestamps are integers (UTC day index); `timedelta(days=k)` becomes `+ k`.
* Python floats are embedded as rationals `ℚ`.  The square roots appearing in
  `_ann_vol` (`rolling.std()` and `sqrt(252)`) are irrational, so the
  volatility column stores `252 * (rolling sample variance)` instead — the
  image of the code's value under the strictly monotone map `x ↦ x^2`.
  Definedness (NaN-ness), which is all the verified claims inspect, agrees
  exactly; relative order (used by quantiles) agrees as well.
* Python `float(x)` on a missing/non-numeric value raises; this is modelled
  by `RawField.bad` and `Option`/`Except` results.
* Division by zero in ℚ returns 0 where Python would produce ±inf; no claim
  below evaluates a division at a zero denominator.
* The SQLAlchemy session is modelled as a list of committed rows.  Both
  insert paths (the exists-check loop in `get_prices`, which sees staged rows
  via autoflush, and the `ON CONFLICT DO NOTHING` bulk insert in
  `_upsert_prices`) have sequential insert-if-absent semantics.
-/

import Mathlib

set_option linter.all false
set_option maxRecDepth 40000
set_option maxHeartbeats 4000000

namespace FinDash

abbrev Timestamp := Int

/-- Python `str.upper` (`String.toUpper` re-stated by structural recursion
over the character list, so that concrete instances reduce in the kernel). -/
def pyUpper (s : String) : String :=
  String.mk (s.data.map Char.toUpper)

/-- Python `str.strip`: drop leading and trailing whitespace. -/
def pyStrip (s : String) : String :=
  String.mk (((s.data.dropWhile Char.isWhitespace).reverse.dropWhile
    Char.isWhitespace).reverse)

/-- A committed row of the `prices` table (`app/db/models.py`, class `Price`).
The OHLC columns are declared `Mapped[float]`, hence NOT NULL; `volume` is
`Mapped[int | None]`.  The Python attribute `open` is a Lean keyword and is
rendered `open_`. -/
structure Price where
  symbol : String
  ts : Timestamp
  open_ : ℚ
  high : ℚ
  low : ℚ
  close : ℚ
  volume : Option Int
deriving DecidableEq

/-- One cell of a provider (yfinance) data frame: either a numeric value or a
value on which Python's `float(...)` raises (`None` / non-numeric). -/
inductive RawField where
  | num (q : ℚ)
  | bad
deriving DecidableEq

def RawField.toFloat : RawField → Option ℚ
  | .num q => some q
  | .bad => none

/-- One row of the data frame returned by the provider adapter. -/
structure RawBar where
  ts : Timestamp
  open_ : RawField
  high : RawField
  low : RawField
  close : RawField
  volume : Option Int
deriving DecidableEq

/-- `float(row.get("open"))` … applied to all four OHLC fields
(`market_data.py` lines 94-102); fails if any field is unparseable. -/
def priceOfRaw (sym : String) (b : RawBar) : Option Price := do
  let o ← b.open_.toFloat
  let h ← b.high.toFloat
  let l ← b.low.toFloat
  let c ← b.close.toFloat
  pure { symbol := sym, ts := b.ts, open_ := o, high := h, low := l,
         close := c, volume := b.volume }

/-- The conversion loop over a fetched frame: `float(...)` on each bar's OHLC
fields in order, aborting at the first unparseable field (`market_data.py`
91-103; the same conversions run per row in `_upsert_prices` 52-61 and in
`_with_indicators` 117-125). -/
def parseBars (sym : String) : List RawBar → Option (List Price)
  | [] => some []
  | b :: bs => do
    let p ← priceOfRaw sym b
    let ps ← parseBars sym bs
    pure (p :: ps)

/-- Does this row sit at the given (symbol, ts) key? -/
def keyMatches (sym : String) (ts : Timestamp) (r : Price) : Bool :=
  r.symbol == sym && r.ts == ts

/-- Insert a row unless its (symbol, ts) key is already present — the shared
semantics of the exists-check loop (`market_data.py` 104-109) and of
`INSERT … ON CONFLICT DO NOTHING` (`agent.py` 63-69). -/
def insertIfAbsent (store : List Price) (r : Price) : List Price :=
  if store.any (keyMatches r.symbol r.ts) then store else store ++ [r]

/-- Upsert a batch of rows, left to right. -/
def upsertRows (store : List Price) (rows : List Price) : List Price :=
  rows.foldl insertIfAbsent store

def keyPresent (store : List Price) (sym : String) (ts : Timestamp) : Bool :=
  store.any (keyMatches sym ts)

def countKey (store : List Price) (sym : String) (ts : Timestamp) : ℕ :=
  (store.filter (keyMatches sym ts)).length

/-- The `uq_prices_symbol_ts` uniqueness constraint. -/
def uniqueKeys (store : List Price) : Prop :=
  store.Pairwise (fun a b => ¬(a.symbol = b.symbol ∧ a.ts = b.ts))

/-- Insertion step for `ORDER BY ts ASC`. -/
def insertByTs (r : Price) : List Price → List Price
  | [] => [r]
  | x :: xs => if r.ts ≤ x.ts then r :: x :: xs else x :: insertByTs r xs

def sortByTs (l : List Price) : List Price :=
  l.foldr insertByTs []

/-- `db.query(Price).filter(symbol == sym, ts >= start).order_by(ts.asc())`
(`market_data.py` 49-54). -/
def loadSince (store : List Price) (sym : String) (start : Timestamp) : List Price :=
  sortByTs (store.filter (fun r => r.symbol == sym && start ≤ r.ts))

/-- `_load_ohlc` (`agent.py` 15-29): full history for `symbol.upper()`,
ascending by ts. -/
def loadOhlc (store : List Price) (symbol : String) : List Price :=
  sortByTs (store.filter (fun r => r.symbol == pyUpper symbol))

/-- 1980-01-01 as a UTC day index (days since 1970-01-01). -/
def epoch1980 : Timestamp := 3653

/-- `_range_to_start` (`market_data.py` 24-35); `now` is passed explicitly. -/
def rangeToStart (now : Timestamp) (r : String) : Timestamp :=
  if r == "1mo" then now - 31
  else if r == "3mo" then now - 93
  else if r == "6mo" then now - 186
  else if r == "1y" then now - 372
  else if r == "2y" then now - 744
  else if r == "5y" then now - 1860
  else if r == "max" then epoch1980
  else now - 372

/-- `symbol.upper().strip()` (`market_data.py` line 43). -/
def normSym (symbol : String) : String :=
  pyStrip (pyUpper symbol)

/-! ### Indicator engine -/

/-- `series.rolling(window=w, min_periods=w).mean()`: defined from index
`w-1` on. -/
def sma (closes : List ℚ) (window : ℕ) : List (Option ℚ) :=
  (List.range closes.length).map (fun i =>
    if window ≤ i + 1 then
      some ((((closes.take (i + 1)).drop (i + 1 - window)).sum) / (window : ℚ))
    else none)

/-- Consecutive differences, `series.diff()` without its leading NaN. -/
def diffs : List ℚ → List ℚ
  | [] => []
  | [_] => []
  | x :: y :: rest => (y - x) :: diffs (y :: rest)

/-- Recursive EMA step: `y_t = (1-a) * y_(t-1) + a * x_t`. -/
def ewmRec (a : ℚ) (st : ℚ) : List ℚ → List ℚ
  | [] => []
  | x :: xs =>
    let st2 := (1 - a) * st + a * x
    st2 :: ewmRec a st2 xs

/-- `series.ewm(alpha=a, adjust=False).mean()` on a fully defined series:
`y_0 = x_0`, then the recursive EMA. -/
def ewmAdjFalse (a : ℚ) : List ℚ → List ℚ
  | [] => []
  | x :: xs => x :: ewmRec a x xs

/-- The `1e-12` guard substituted for a zero denominator. -/
def eps12 : ℚ := 1 / 1000000000000

/-- One output cell of the RSI: `100 - 100 / (1 + up / down)` with the
zero-denominator replacement of `roll_down.replace(0, 1e-12)`. -/
def rsiCell (u dn : ℚ) : Option ℚ :=
  let dd := if dn = 0 then eps12 else dn
  some (100 - 100 / (1 + u / dd))

/-- `rsi` (`market_data.py` 15-22) = `_rsi` (`agent.py` 116-123): Wilder-style
RSI.  `series.diff()` has NaN at index 0, so gains/losses start at index 1;
`ewm(adjust=False)` emits NaN there and starts the EMA at the first valid
value. -/
def rsi (closes : List ℚ) (period : ℕ) : List (Option ℚ) :=
  match closes with
  | [] => []
  | _ :: _ =>
    let d := diffs closes
    let up := d.map (fun x => max x 0)
    let down := d.map (fun x => max (-x) 0)
    let ru := ewmAdjFalse (1 / (period : ℚ)) up
    let rd := ewmAdjFalse (1 / (period : ℚ)) down
    none :: List.zipWith rsiCell ru rd

/-- `series.pct_change(k)` over a fully defined series: defined from index
`k` on. -/
def pctChange (closes : List ℚ) (k : ℕ) : List (Option ℚ) :=
  (List.range closes.length).map (fun i =>
    if k ≤ i ∧ 0 < k then
      match closes[i]?, closes[i - k]? with
      | some c, some p => some (c / p - 1)
      | _, _ => none
    else none)

/-- Sample variance with `ddof=1` (the pandas `std` default, squared). -/
def sampleVar (xs : List ℚ) : ℚ :=
  let n : ℚ := (xs.length : ℚ)
  let m := xs.sum / n
  (xs.map (fun x => (x - m) ^ 2)).sum / (n - 1)

/-- The trailing window of width `w` ending at index `i`, provided the window
is complete and every cell in it is defined. -/
def windowAt (l : List (Option ℚ)) (i w : ℕ) : Option (List ℚ) :=
  if w ≤ i + 1 then
    let seg := (l.take (i + 1)).drop (i + 1 - w)
    if seg.all Option.isSome then some (seg.reduceOption) else none
  else none

/-- `_ann_vol` (`agent.py` 87-88) embedded through the monotone map
`x ↦ x^2`: stores `252 * rolling sample variance` where the code stores
`sqrt` of it (see the header comment). -/
def annVolSq (returns : List (Option ℚ)) (window : ℕ) : List (Option ℚ) :=
  (List.range returns.length).map (fun i =>
    (windowAt returns i window).map (fun seg => 252 * sampleVar seg))

/-- Maximum of a list (0 for the empty list, which never occurs at use
sites). -/
def listMax : List ℚ → ℚ
  | [] => 0
  | x :: xs => xs.foldl max x

/-- `close.rolling(200, min_periods=1).max()`: defined at every index. -/
def rollMax (closes : List ℚ) (window : ℕ) : List ℚ :=
  (List.range closes.length).map (fun i =>
    listMax ((closes.take (i + 1)).drop (i + 1 - window)))

/-! ### Cache reconciler: `get_prices` (`market_data.py` 37-111) -/

/-- One entry of the `candles` array built by `_with_indicators`. -/
structure Candle where
  t : Timestamp
  o : ℚ
  h : ℚ
  l : ℚ
  c : ℚ
  v : Option Int
deriving DecidableEq

/-- The price-query response payload. -/
structure PricesPayload where
  source : String
  symbol : String
  candles : List Candle
  sma20 : List (Option ℚ)
  sma50 : List (Option ℚ)
  rsi14 : List (Option ℚ)
deriving DecidableEq

/-- `.round(4)`.  numpy rounds half to even; an exact tie at the 4th decimal
cannot arise from a binary float, so round-half-up is observationally
equal at every reachable input. -/
def round4 (q : ℚ) : ℚ :=
  (round (q * 10000) : ℚ) / 10000

def candleOfPrice (r : Price) : Candle :=
  { t := r.ts, o := r.open_, h := r.high, l := r.low, c := r.close,
    v := r.volume }

/-- `_with_indicators` (`market_data.py` 113-138), minus the `source` key the
caller merges in.  The empty-frame early return produces the same value as
the general path (all four lists empty). -/
def withIndicators (sym : String) (candles : List Candle) : PricesPayload :=
  let closes := candles.map Candle.c
  { source := "",
    symbol := sym,
    candles := candles,
    sma20 := (sma closes 20).map (Option.map round4),
    sma50 := (sma closes 50).map (Option.map round4),
    rsi14 := (rsi closes 14).map (Option.map round4) }

/-- What `ticker.history(...)` would yield if called: a data frame, or a
raised network/timeout exception. -/
inductive FetchOutcome where
  | ok (bars : List RawBar)
  | netErr
deriving DecidableEq

/-- The errors `get_prices` can raise (all surfaced as exceptions). -/
inductive PriceErr where
  | providerUnavailable
  | unknownSymbol
  | badBar
deriving DecidableEq

instance {ε α : Type} [DecidableEq ε] [DecidableEq α] : DecidableEq (Except ε α)
  | .error a, .error b =>
    if h : a = b then isTrue (by rw [h])
    else isFalse (by intro hh; cases hh; exact h rfl)
  | .error _, .ok _ => isFalse (by intro hh; cases hh)
  | .ok _, .error _ => isFalse (by intro hh; cases hh)
  | .ok a, .ok b =>
    if h : a = b then isTrue (by rw [h])
    else isFalse (by intro hh; cases hh; exact h rfl)

/-- Result of a `get_prices` call: the returned value or raised error, the
store after the call, and how many times the provider adapter was invoked. -/
structure GetPricesResult where
  result : Except PriceErr PricesPayload
  store : List Price
  providerCalls : ℕ
deriving DecidableEq

/-- Timestamp of the head of an ascending series (0 if empty; callers guard
non-emptiness). -/
def earliestTs : List Price → Timestamp
  | [] => 0
  | r :: _ => r.ts

/-- The cache-hit test of `market_data.py` 55-57: some cached bars at
`ts >= start`, and the earliest within 2 days of `start`. -/
def cacheHit (store : List Price) (sym : String) (start : Timestamp) : Bool :=
  let cached := loadSince store sym start
  !cached.isEmpty && decide (earliestTs cached ≤ start + 2)

/-- The provider branch of `get_prices` (lines 74-111).  A bar whose OHLC
fields fail `float(...)` aborts the request before any row is committed
(the conversion loop at lines 91-103 runs before `db.add`/`db.commit`). -/
def providerPath (store : List Price) (fetch : FetchOutcome) (sym : String)
    (interval : String) : GetPricesResult :=
  match fetch with
  | .netErr => { result := .error .providerUnavailable, store := store, providerCalls := 1 }
  | .ok hist =>
    if hist.isEmpty then
      { result := .error .unknownSymbol, store := store, providerCalls := 1 }
    else
      match parseBars sym hist with
      | none => { result := .error .badBar, store := store, providerCalls := 1 }
      | some rows =>
        { result := .ok { withIndicators sym (rows.map candleOfPrice) with source := "provider" },
          store := if interval == "1d" then upsertRows store rows else store,
          providerCalls := 1 }

/-- `get_prices` (`market_data.py` 37-111).  `now` replaces
`datetime.now(timezone.utc)`; `fetch` is the provider adapter's would-be
response. -/
def getPrices (store : List Price) (now : Timestamp) (fetch : FetchOutcome)
    (symbol range_ interval : String) : GetPricesResult :=
  let sym := normSym symbol
  let start := rangeToStart now range_
  if interval == "1d" && cacheHit store sym start then
    { result := .ok { withIndicators sym ((loadSince store sym start).map candleOfPrice) with
        source := "db" },
      store := store,
      providerCalls := 0 }
  else
    providerPath store fetch sym interval

/-! ### Scorer support: `agent.py` -/

inductive AgentErr where
  | notEnoughData
  | providerErr
  | dbErr
deriving DecidableEq

/-- `_upsert_prices` (`agent.py` 45-71).  A NaN OHLC cell becomes a NULL
insert into a NOT NULL column (`models.py` 34-37) and raises before the
commit, leaving the store unchanged; `float` on a non-numeric string raises
likewise.  An empty frame returns without touching the store. -/
def upsertPrices (store : List Price) (symbol : String) (bars : List RawBar) :
    Except AgentErr (List Price) :=
  let sym := pyUpper symbol
  if bars.isEmpty then .ok store
  else
    match parseBars sym bars with
    | none => .error .dbErr
    | some rows => .ok (upsertRows store rows)

/-- Outcome of `_ensure_history`: the data frame handed to the scorer, the
store afterwards, and the number of provider invocations. -/
structure EnsureResult where
  df : List Price
  store : List Price
  calls : ℕ
deriving DecidableEq

/-- `_ensure_history` (`agent.py` 73-85). -/
def ensureHistory (store : List Price) (fetch : FetchOutcome) (symbol : String)
    (minRows : ℕ) : Except AgentErr EnsureResult :=
  let df := loadOhlc store symbol
  if minRows ≤ df.length then .ok { df := df, store := store, calls := 0 }
  else
    match fetch with
    | .netErr => .error .providerErr
    | .ok prov =>
      if prov.isEmpty then .ok { df := df, store := store, calls := 1 }
      else
        match upsertPrices store symbol prov with
        | .error e => .error e
        | .ok store2 => .ok { df := loadOhlc store2 symbol, store := store2, calls := 1 }

/-- The forward-looking label `(close.shift(-k) > close).astype(int)`
(`agent.py` 143/175/209).  When `close[i+k]` does not exist, `NaN > x`
evaluates to `False`, so `astype(int)` yields 0 — not NaN. -/
def labelAt (closes : List ℚ) (shift : ℕ) (i : ℕ) : ℕ :=
  match closes[i + shift]?, closes[i]? with
  | some fut, some cur => if cur < fut then 1 else 0
  | _, _ => 0

/-- `close / sma - 1` columns. -/
def relCol (closes : List ℚ) (smaCol : List (Option ℚ)) : List (Option ℚ) :=
  List.zipWith (fun c m => m.map (fun mv => c / mv - 1)) closes smaCol

/-- A retained row of the day-horizon feature/label table. -/
structure DayRow where
  ts : Timestamp
  ret1 : ℚ
  ret3 : ℚ
  ret5 : ℚ
  rsi14 : ℚ
  sma5Rel : ℚ
  sma10Rel : ℚ
  vol20 : ℚ
  y : ℕ
deriving DecidableEq

/-- Feature/label table of `score_day` (`agent.py` 133-144): the columns of
`d` after `d.dropna()`.  `dropna` drops a row when ANY column is NaN, so a
NULL `volume` also discards the row; `open/high/low/close` are NOT NULL and
the intermediate `sma5`/`sma10` columns are NaN exactly when their `_rel`
column is.  The label column is always defined (see `labelAt`). -/
def dayTable (bars : List Price) : List DayRow :=
  let closes := bars.map Price.close
  let ret1 := pctChange closes 1
  let ret3 := pctChange closes 3
  let ret5 := pctChange closes 5
  let rsi14 := rsi closes 14
  let sma5Rel := relCol closes (sma closes 5)
  let sma10Rel := relCol closes (sma closes 10)
  let vol20 := annVolSq (pctChange closes 1) 20
  (List.range bars.length).filterMap (fun i => do
    let b ← bars[i]?
    let _ ← b.volume
    let r1 ← (ret1[i]?).join
    let r3 ← (ret3[i]?).join
    let r5 ← (ret5[i]?).join
    let rs ← (rsi14[i]?).join
    let s5 ← (sma5Rel[i]?).join
    let s10 ← (sma10Rel[i]?).join
    let v ← (vol20[i]?).join
    pure { ts := b.ts, ret1 := r1, ret3 := r3, ret5 := r5, rsi14 := rs,
           sma5Rel := s5, sma10Rel := s10, vol20 := v,
           y := labelAt closes 1 i })

/-- A retained row of the swing-horizon feature/label table. -/
structure SwingRow where
  ts : Timestamp
  ret5 : ℚ
  ret10 : ℚ
  ret20 : ℚ
  rsi14 : ℚ
  sma20Rel : ℚ
  sma50Rel : ℚ
  vol20 : ℚ
  y : ℕ
deriving DecidableEq

/-- Feature/label table of `score_swing` (`agent.py` 165-176). -/
def swingTable (bars : List Price) : List SwingRow :=
  let closes := bars.map Price.close
  let ret5 := pctChange closes 5
  let ret10 := pctChange closes 10
  let ret20 := pctChange closes 20
  let rsi14 := rsi closes 14
  let sma20Rel := relCol closes (sma closes 20)
  let sma50Rel := relCol closes (sma closes 50)
  let vol20 := annVolSq (pctChange closes 1) 20
  (List.range bars.length).filterMap (fun i => do
    let b ← bars[i]?
    let _ ← b.volume
    let r5 ← (ret5[i]?).join
    let r10 ← (ret10[i]?).join
    let r20 ← (ret20[i]?).join
    let rs ← (rsi14[i]?).join
    let s20 ← (sma20Rel[i]?).join
    let s50 ← (sma50Rel[i]?).join
    let v ← (vol20[i]?).join
    pure { ts := b.ts, ret5 := r5, ret10 := r10, ret20 := r20, rsi14 := rs,
           sma20Rel := s20, sma50Rel := s50, vol20 := v,
           y := labelAt closes 5 i })

/-- A retained row of the long-horizon feature/label table. -/
structure LongRow where
  ts : Timestamp
  ret20 : ℚ
  ret60 : ℚ
  ret120 : ℚ
  vol60 : ℚ
  sma50Rel : ℚ
  sma200Rel : ℚ
  drawdown : ℚ
  y : ℕ
deriving DecidableEq

/-- Feature/label table of `score_long` (`agent.py` 197-210).  `drawdown`
uses `rolling(200, min_periods=1).max()` and is defined at every index. -/
def longTable (bars : List Price) : List LongRow :=
  let closes := bars.map Price.close
  let ret20 := pctChange closes 20
  let ret60 := pctChange closes 60
  let ret120 := pctChange closes 120
  let vol60 := annVolSq (pctChange closes 1) 60
  let sma50Rel := relCol closes (sma closes 50)
  let sma200Rel := relCol closes (sma closes 200)
  let rollmax := rollMax closes 200
  (List.range bars.length).filterMap (fun i => do
    let b ← bars[i]?
    let _ ← b.volume
    let r20 ← (ret20[i]?).join
    let r60 ← (ret60[i]?).join
    let r120 ← (ret120[i]?).join
    let v ← (vol60[i]?).join
    let s50 ← (sma50Rel[i]?).join
    let s200 ← (sma200Rel[i]?).join
    let rm ← rollmax[i]?
    pure { ts := b.ts, ret20 := r20, ret60 := r60, ret120 := r120, vol60 := v,
           sma50Rel := s50, sma200Rel := s200,
           drawdown := b.close / rm - 1,
           y := labelAt closes 60 i })

/-- `score_day` (`agent.py` 125-155) up to the classifier fit: everything
before `LogisticRegression` at line 151 — history provisioning, the raw-size
gate, the table build, the post-dropna gate.  The numeric fit/predict tail is
an external library call outside the embedding. -/
def scoreDayPrep (store : List Price) (fetch : FetchOutcome) (symbol : String) :
    Except AgentErr (List DayRow × List Price) :=
  match ensureHistory store fetch symbol 200 with
  | .error e => .error e
  | .ok er =>
    if er.df.isEmpty || er.df.length < 200 then .error .notEnoughData
    else
      let t := dayTable er.df
      if t.length < 180 then .error .notEnoughData
      else .ok (t, er.store)

/-- `score_swing` (`agent.py` 157-187) up to the classifier fit. -/
def scoreSwingPrep (store : List Price) (fetch : FetchOutcome) (symbol : String) :
    Except AgentErr (List SwingRow × List Price) :=
  match ensureHistory store fetch symbol 260 with
  | .error e => .error e
  | .ok er =>
    if er.df.isEmpty || er.df.length < 220 then .error .notEnoughData
    else
      let t := swingTable er.df
      if t.length < 200 then .error .notEnoughData
      else .ok (t, er.store)

/-- `score_long` (`agent.py` 189-223) up to the classifier fit. -/
def scoreLongPrep (store : List Price) (fetch : FetchOutcome) (symbol : String) :
    Except AgentErr (List LongRow × List Price) :=
  match ensureHistory store fetch symbol 520 with
  | .error e => .error e
  | .ok er =>
    if er.df.isEmpty || er.df.length < 300 then .error .notEnoughData
    else
      let t := longTable er.df
      if t.length < 280 then .error .notEnoughData
      else .ok (t, er.store)

/-! ### Scorer tail: regime, recommendation, payload -/

/-- Ascending insertion sort on ℚ, for `Series.quantile`. -/
def insertQ (x : ℚ) : List ℚ → List ℚ
  | [] => [x]
  | y :: ys => if x ≤ y then x :: y :: ys else y :: insertQ x ys

def sortQ (l : List ℚ) : List ℚ :=
  l.foldr insertQ []

/-- `Series.quantile(q)` with the default linear interpolation: position
`q * (n-1)` between the sorted order statistics. -/
def quantileLinear (xs : List ℚ) (q : ℚ) : ℚ :=
  let s := sortQ xs
  let n := s.length
  if n = 0 then 0
  else
    let h : ℚ := q * ((n : ℚ) - 1)
    let lo := (⌊h⌋).toNat
    let hi := (⌈h⌉).toNat
    s.getD lo 0 + (h - (⌊h⌋ : ℚ)) * (s.getD hi 0 - s.getD lo 0)

/-- `_regime_from_vol` (`agent.py` 90-92). -/
def regimeFromVol (value : ℚ) (series : List ℚ) : String :=
  let q33 := quantileLinear series (33 / 100)
  let q66 := quantileLinear series (66 / 100)
  if value ≤ q33 then "low" else if value ≤ q66 then "medium" else "high"

/-- `_rec_from_prob` (`agent.py` 94-102).  The callers never override the
default thresholds `buy=0.58`, `sell=0.42`. -/
def recFromProb (prob : ℚ) (volRegime : String) : String :=
  let buy : ℚ := 58 / 100
  let sell : ℚ := 42 / 100
  let buy := if volRegime == "high" then buy + 2 / 100 else buy
  let sell := if volRegime == "high" then sell - 2 / 100 else sell
  if buy ≤ prob then "Consider Buy"
  else if prob ≤ sell then "Consider Sell"
  else "Hold"

/-- The score-query response payload. -/
structure ScorePayload where
  symbol : String
  probUp : ℚ
  volatility : ℚ
  regime : String
  recommendation : String
  features : List (String × ℚ)
deriving DecidableEq

/-- `_final_payload` (`agent.py` 104-114). -/
def finalPayload (symbol : String) (probUp vol : ℚ) (volSeries : List ℚ)
    (features : List (String × ℚ)) : ScorePayload :=
  let regime := regimeFromVol vol volSeries
  { symbol := pyUpper symbol,
    probUp := round4 probUp,
    volatility := round4 vol,
    regime := regime,
    recommendation := recFromProb probUp regime,
    features := features }

/-! ### Concrete stores and bars used by witnesses and counterexamples -/

/-- A well-formed daily bar at day `i` with constant unit prices. -/
def exBar (sym : String) (i : ℕ) : Price :=
  { symbol := sym, ts := (i : Int), open_ := 1, high := 1, low := 1, close := 1,
    volume := some 1000 }

/-- 30 consecutive daily bars for AAPL. -/
def bars30 : List Price := (List.range 30).map (exBar "AAPL")

/-- 250 consecutive daily bars for AAPL. -/
def store250 : List Price := (List.range 250).map (exBar "AAPL")

/-- 10 consecutive daily bars for AAPL. -/
def store10 : List Price := (List.range 10).map (exBar "AAPL")

/-- A provider bar all of whose fields parse. -/
def rawGood : RawBar :=
  { ts := 1, open_ := .num 1, high := .num 1, low := .num 1, close := .num 1,
    volume := some 5 }

/-- A provider bar whose `close` cannot be parsed as numeric. -/
def rawBad : RawBar :=
  { ts := 2, open_ := .num 1, high := .num 1, low := .num 1, close := .bad,
    volume := some 5 }

/-- The row `rawGood` parses to, under symbol AAPL. -/
def parsedGood : Price :=
  { symbol := "AAPL", ts := 1, open_ := 1, high := 1, low := 1, close := 1, volume := some 5 }

/-! ### Store lemmas -/

theorem keyMatches_iff {sym : String} {ts : Timestamp} {r : Price} :
    keyMatches sym ts r = true ↔ r.symbol = sym ∧ r.ts = ts := by
  simp [keyMatches]

theorem keyPresent_insertIfAbsent_mono (store : List Price) (x : Price)
    (sym : String) (ts : Timestamp) (h : keyPresent store sym ts = true) :
    keyPresent (insertIfAbsent store x) sym ts = true := by
  unfold insertIfAbsent
  split
  · exact h
  · unfold keyPresent at h ⊢
    simp only [List.any_append, Bool.or_eq_true]
    exact Or.inl h

theorem keyPresent_insertIfAbsent_self (store : List Price) (r : Price) :
    keyPresent (insertIfAbsent store r) r.symbol r.ts = true := by
  unfold insertIfAbsent
  split
  · assumption
  · unfold keyPresent
    simp [List.any_append, keyMatches]

theorem keyPresent_upsertRows_mono (rows : List Price) (store : List Price)
    (sym : String) (ts : Timestamp) (h : keyPresent store sym ts = true) :
    keyPresent (upsertRows store rows) sym ts = true := by
  induction rows generalizing store with
  | nil => exact h
  | cons a l ih =>
    show keyPresent (upsertRows (insertIfAbsent store a) l) sym ts = true
    exact ih _ (keyPresent_insertIfAbsent_mono store a sym ts h)

theorem keyPresent_upsertRows_of_mem {r : Price} {rows : List Price}
    (hmem : r ∈ rows) : ∀ store : List Price,
    keyPresent (upsertRows store rows) r.symbol r.ts = true := by
  induction rows with
  | nil => cases hmem
  | cons a l ih =>
    intro store
    rcases List.mem_cons.mp hmem with rfl | h2
    · exact keyPresent_upsertRows_mono l _ _ _
        (keyPresent_insertIfAbsent_self store r)
    · exact ih h2 _

theorem insertIfAbsent_of_present {store : List Price} {r : Price}
    (h : keyPresent store r.symbol r.ts = true) :
    insertIfAbsent store r = store := by
  unfold insertIfAbsent
  unfold keyPresent at h
  simp [h]

theorem upsertRows_of_all_present {rows store : List Price}
    (h : ∀ r ∈ rows, keyPresent store r.symbol r.ts = true) :
    upsertRows store rows = store := by
  induction rows with
  | nil => rfl
  | cons a l ih =>
    show upsertRows (insertIfAbsent store a) l = store
    rw [insertIfAbsent_of_present (h a (by simp))]
    exact ih (fun r hr => h r (by simp [hr]))

theorem countKey_eq_one_of_present {store : List Price} (hU : uniqueKeys store)
    {sym : String} {ts : Timestamp} (h : keyPresent store sym ts = true) :
    countKey store sym ts = 1 := by
  induction store with
  | nil => simp [keyPresent] at h
  | cons a l ih =>
    rcases List.pairwise_cons.mp hU with ⟨ha, hl⟩
    unfold keyPresent at h
    simp only [List.any_cons, Bool.or_eq_true] at h
    unfold countKey
    by_cases hm : keyMatches sym ts a = true
    · rcases keyMatches_iff.mp hm with ⟨hs, ht⟩
      have hfl : l.filter (keyMatches sym ts) = [] := by
        apply List.filter_eq_nil.mpr
        intro b hb hmb
        rcases keyMatches_iff.mp hmb with ⟨hbs, hbt⟩
        exact ha b hb ⟨hs.trans hbs.symm, ht.trans hbt.symm⟩
      simp [List.filter_cons, hm, hfl]
    · rcases h with h | h
      · exact absurd h hm
      · have := ih hl h
        unfold countKey at this
        simp [List.filter_cons, hm, this]

theorem mem_insertByTs {r x : Price} {l : List Price} :
    r ∈ insertByTs x l ↔ r = x ∨ r ∈ l := by
  induction l with
  | nil => simp [insertByTs]
  | cons a as ih =>
    unfold insertByTs
    split
    · simp
    · simp only [List.mem_cons, ih]
      try tauto

theorem mem_sortByTs {r : Price} {l : List Price} :
    r ∈ sortByTs l ↔ r ∈ l := by
  induction l with
  | nil => simp [sortByTs]
  | cons a as ih =>
    show r ∈ insertByTs a (sortByTs as) ↔ _
    rw [mem_insertByTs]
    simp only [List.mem_cons, ih]
    try tauto

theorem mem_insertIfAbsent {r x : Price} {store : List Price}
    (h : r ∈ insertIfAbsent store x) : r ∈ store ∨ r = x := by
  unfold insertIfAbsent at h
  split at h
  · exact Or.inl h
  · rcases List.mem_append.mp h with h2 | h2
    · exact Or.inl h2
    · exact Or.inr (List.mem_singleton.mp h2)

theorem mem_upsertRows {r : Price} {rows store : List Price}
    (h : r ∈ upsertRows store rows) : r ∈ store ∨ r ∈ rows := by
  induction rows generalizing store with
  | nil => exact Or.inl h
  | cons a l ih =>
    have h2 : r ∈ upsertRows (insertIfAbsent store a) l := h
    rcases ih h2 with h3 | h3
    · rcases mem_insertIfAbsent h3 with h4 | h4
      · exact Or.inl h4
      · exact Or.inr (by simp [h4])
    · exact Or.inr (by simp [h3])

theorem priceOfRaw_symbol {sym : String} {b : RawBar} {p : Price}
    (h : priceOfRaw sym b = some p) : p.symbol = sym := by
  simp only [priceOfRaw, bind, Option.bind_eq_some, Option.pure_def,
    Option.some.injEq] at h
  rcases h with ⟨o, _, h1, _, l1, _, c1, _, hp⟩
  rw [← hp]

theorem parseBars_symbol {sym : String} {bars : List RawBar} {rows : List Price}
    (h : parseBars sym bars = some rows) : ∀ r ∈ rows, r.symbol = sym := by
  induction bars generalizing rows with
  | nil =>
    simp only [parseBars, Option.some.injEq] at h
    subst h; intro r hr; cases hr
  | cons b bs ih =>
    simp only [parseBars, bind, Option.bind_eq_some, Option.pure_def,
      Option.some.injEq] at h
    rcases h with ⟨p, hp, ps, hps, hcons⟩
    subst hcons
    intro r hr
    rcases List.mem_cons.mp hr with rfl | hr2
    · exact priceOfRaw_symbol hp
    · exact ih hps r hr2

theorem mem_loadOhlc_symbol {store : List Price} {symbol : String} {r : Price}
    (h : r ∈ loadOhlc store symbol) : r.symbol = pyUpper symbol := by
  unfold loadOhlc at h
  have h2 := mem_sortByTs.mp h
  rcases List.mem_filter.mp h2 with ⟨_, hp⟩
  exact beq_iff_eq.mp hp

/-- C4.  Upsert is idempotent and never overwrites: under the table's
uniqueness constraint, upserting a bar whose (symbol, timestamp) key is
already present leaves the store unchanged (hence every existing field
unchanged) with exactly one row at that key, and upserting any series twice
equals upserting it once. -/
theorem upsert_idempotent_no_overwrite (store : List Price)
    (hU : uniqueKeys store) :
    (∀ r : Price, keyPresent store r.symbol r.ts = true →
       upsertRows store [r] = store ∧ countKey store r.symbol r.ts = 1) ∧
    (∀ rows : List Price,
       upsertRows (upsertRows store rows) rows = upsertRows store rows) := by
  constructor
  · intro r hr
    constructor
    · show upsertRows (insertIfAbsent store r) [] = store
      show insertIfAbsent store r = store
      exact insertIfAbsent_of_present hr
    · exact countKey_eq_one_of_present hU hr
  · intro rows
    exact upsertRows_of_all_present
      (fun r hr => keyPresent_upsertRows_of_mem hr store)

/-- Witness for C4 at a concrete store: a second bar at the same key
(different fields) neither changes the stored row nor adds a second one, and
a double upsert of a fresh series equals a single one. -/
theorem upsert_idempotent_no_overwrite_witness :
    upsertRows [exBar "AAPL" 1] [{ exBar "AAPL" 1 with close := 9 }] = [exBar "AAPL" 1] ∧
    countKey [exBar "AAPL" 1] "AAPL" 1 = 1 := by
  have h := (upsert_idempotent_no_overwrite [exBar "AAPL" 1]
      (by simp [uniqueKeys])).1
      { exBar "AAPL" 1 with close := 9 }
      (by with_unfolding_all decide)
  exact h

/-- C9.  `_ensure_history` frame property: with at least `minRows` rows
already stored, it returns the stored history, performs no provider call and
leaves the store unchanged; when short and the provider returns an empty
frame, it returns exactly what was already stored. -/
theorem ensureHistory_frame_property (store : List Price) (fetch : FetchOutcome)
    (symbol : String) (minRows : ℕ) :
    (minRows ≤ (loadOhlc store symbol).length →
       ensureHistory store fetch symbol minRows =
         .ok { df := loadOhlc store symbol, store := store, calls := 0 }) ∧
    ((loadOhlc store symbol).length < minRows → fetch = .ok [] →
       ensureHistory store fetch symbol minRows =
         .ok { df := loadOhlc store symbol, store := store, calls := 1 }) := by
  constructor
  · intro h
    unfold ensureHistory
    simp [h]
  · intro h hf
    subst hf
    unfold ensureHistory
    simp [Nat.not_le.mpr h, List.isEmpty]

/-- Witness for C9: a populated one-row store with `minRows = 1` is served
from the store whatever the provider would say; a short store with an empty
provider response is returned as-is. -/
theorem ensureHistory_frame_property_witness :
    ensureHistory [exBar "AAPL" 1] FetchOutcome.netErr "AAPL" 1 =
      .ok { df := loadOhlc [exBar "AAPL" 1] "AAPL", store := [exBar "AAPL" 1], calls := 0 } ∧
    ensureHistory [exBar "AAPL" 1] (FetchOutcome.ok []) "AAPL" 5 =
      .ok { df := loadOhlc [exBar "AAPL" 1] "AAPL", store := [exBar "AAPL" 1], calls := 1 } := by
  constructor
  · exact (ensureHistory_frame_property [exBar "AAPL" 1] FetchOutcome.netErr
      "AAPL" 1).1 (by with_unfolding_all decide)
  · exact (ensureHistory_frame_property [exBar "AAPL" 1] (FetchOutcome.ok [])
      "AAPL" 5).2 (by with_unfolding_all decide) rfl

/-! ### Recommendation mapping -/

theorem rec_if_shape (p b s : ℚ) (hbs : s < b) :
    ((if b ≤ p then "Consider Buy" else if p ≤ s then "Consider Sell" else "Hold")
        = "Consider Buy" ↔ b ≤ p) ∧
    ((if b ≤ p then "Consider Buy" else if p ≤ s then "Consider Sell" else "Hold")
        = "Consider Sell" ↔ p ≤ s) ∧
    ((if b ≤ p then "Consider Buy" else if p ≤ s then "Consider Sell" else "Hold")
        = "Hold" ↔ s < p ∧ p < b) := by
  split_ifs with h1 h2
  · refine ⟨⟨fun _ => h1, fun _ => rfl⟩, ⟨fun hh => ?_, fun hh => ?_⟩,
      ⟨fun hh => ?_, fun hh => ?_⟩⟩
    · exact absurd hh (by decide)
    · exfalso; linarith
    · exact absurd hh (by decide)
    · exfalso; linarith [hh.2]
  · refine ⟨⟨fun hh => ?_, fun hh => ?_⟩, ⟨fun _ => h2, fun _ => rfl⟩,
      ⟨fun hh => ?_, fun hh => ?_⟩⟩
    · exact absurd hh (by decide)
    · exact absurd hh h1
    · exact absurd hh (by decide)
    · exfalso; linarith [hh.1]
  · refine ⟨⟨fun hh => ?_, fun hh => ?_⟩, ⟨fun hh => ?_, fun hh => ?_⟩,
      ⟨fun _ => ⟨not_le.mp h2, not_le.mp h1⟩, fun _ => rfl⟩⟩
    · exact absurd hh (by decide)
    · exact absurd hh h1
    · exact absurd hh (by decide)
    · exact absurd hh h2

/-- C5.  Probability-to-recommendation mapping: for a probability in [0, 1]
and a regime among low/medium/high, the recommendation is "Consider Buy" iff
`buy ≤ p`, "Consider Sell" iff `p ≤ sell`, and "Hold" otherwise, with
`(buy, sell) = (0.58, 0.42)` for low/medium and `(0.60, 0.40)` for high. -/
theorem rec_from_prob_threshold_mapping (p : ℚ) (regime : String)
    (hp0 : 0 ≤ p) (hp1 : p ≤ 1)
    (hr : regime = "low" ∨ regime = "medium" ∨ regime = "high") :
    (recFromProb p regime = "Consider Buy" ↔
       (if regime = "high" then (60 : ℚ) / 100 else 58 / 100) ≤ p) ∧
    (recFromProb p regime = "Consider Sell" ↔
       p ≤ (if regime = "high" then (40 : ℚ) / 100 else 42 / 100)) ∧
    (recFromProb p regime = "Hold" ↔
       ((if regime = "high" then (40 : ℚ) / 100 else 42 / 100) < p ∧
        p < (if regime = "high" then (60 : ℚ) / 100 else 58 / 100))) := by
  rcases hr with rfl | rfl | rfl
  · have he : recFromProb p "low" =
        (if (58 : ℚ) / 100 ≤ p then "Consider Buy"
         else if p ≤ 42 / 100 then "Consider Sell" else "Hold") := rfl
    rw [he]
    exact rec_if_shape p (58 / 100) (42 / 100) (by norm_num)
  · have he : recFromProb p "medium" =
        (if (58 : ℚ) / 100 ≤ p then "Consider Buy"
         else if p ≤ 42 / 100 then "Consider Sell" else "Hold") := rfl
    rw [he]
    exact rec_if_shape p (58 / 100) (42 / 100) (by norm_num)
  · have he : recFromProb p "high" =
        (if (58 / 100 + 2 / 100 : ℚ) ≤ p then "Consider Buy"
         else if p ≤ 42 / 100 - 2 / 100 then "Consider Sell" else "Hold") := rfl
    rw [he, show (58 / 100 + 2 / 100 : ℚ) = 60 / 100 by norm_num,
      show (42 / 100 - 2 / 100 : ℚ) = 40 / 100 by norm_num]
    exact rec_if_shape p (60 / 100) (40 / 100) (by norm_num)

/-- Witness for C5: the spec's three sample points, obtained from the mapping
theorem. -/
theorem rec_from_prob_threshold_mapping_witness :
    recFromProb (60 / 100) "low" = "Consider Buy" ∧
    recFromProb (50 / 100) "high" = "Hold" ∧
    recFromProb (39 / 100) "medium" = "Consider Sell" := by
  refine ⟨?_, ?_, ?_⟩
  · exact (rec_from_prob_threshold_mapping (60 / 100) "low" (by norm_num)
      (by norm_num) (Or.inl rfl)).1.mpr
      (by rw [if_neg (by decide : ¬("low" : String) = "high")]; norm_num)
  · exact (rec_from_prob_threshold_mapping (50 / 100) "high" (by norm_num)
      (by norm_num) (Or.inr (Or.inr rfl))).2.2.mpr
      (by rw [if_pos rfl, if_pos rfl]; norm_num)
  · exact (rec_from_prob_threshold_mapping (39 / 100) "medium" (by norm_num)
      (by norm_num) (Or.inr (Or.inl rfl))).2.1.mpr
      (by rw [if_neg (by decide : ¬("medium" : String) = "high")]; norm_num)

/-! ### RSI bounds -/

theorem ewmRec_nonneg (a : ℚ) (ha0 : 0 ≤ a) (ha1 : a ≤ 1) :
    ∀ (l : List ℚ) (st : ℚ), 0 ≤ st → (∀ x ∈ l, 0 ≤ x) →
      ∀ y ∈ ewmRec a st l, 0 ≤ y := by
  intro l
  induction l with
  | nil => intro st _ _ y hy; simp [ewmRec] at hy
  | cons x xs ih =>
    intro st hst hl y hy
    have hx : 0 ≤ x := hl x (by simp)
    have hst2 : 0 ≤ (1 - a) * st + a * x :=
      add_nonneg (mul_nonneg (by linarith) hst) (mul_nonneg ha0 hx)
    simp only [ewmRec] at hy
    rcases List.mem_cons.mp hy with rfl | hy2
    · exact hst2
    · exact ih ((1 - a) * st + a * x) hst2 (fun z hz => hl z (by simp [hz])) y hy2

theorem ewmAdjFalse_nonneg (a : ℚ) (ha0 : 0 ≤ a) (ha1 : a ≤ 1)
    (l : List ℚ) (hl : ∀ x ∈ l, 0 ≤ x) : ∀ y ∈ ewmAdjFalse a l, 0 ≤ y := by
  cases l with
  | nil => intro y hy; simp [ewmAdjFalse] at hy
  | cons x xs =>
    intro y hy
    simp only [ewmAdjFalse] at hy
    rcases List.mem_cons.mp hy with rfl | hy2
    · exact hl y (by simp)
    · exact ewmRec_nonneg a ha0 ha1 xs x (hl x (by simp))
        (fun z hz => hl z (by simp [hz])) y hy2

theorem rsiVal_bounds (u dd : ℚ) (hu : 0 ≤ u) (hdd : 0 < dd) :
    0 ≤ 100 - 100 / (1 + u / dd) ∧ 100 - 100 / (1 + u / dd) ≤ 100 := by
  have hrs : 0 ≤ u / dd := div_nonneg hu hdd.le
  have h1 : (0 : ℚ) < 1 + u / dd := by linarith
  have hfrac0 : 0 < 100 / (1 + u / dd) := by positivity
  have hfrac1 : 100 / (1 + u / dd) ≤ 100 := by
    rw [div_le_iff h1]; nlinarith
  constructor <;> linarith

theorem rsiCell_bounds {u dn x : ℚ} (hu : 0 ≤ u) (hdn : 0 ≤ dn)
    (hx : rsiCell u dn = some x) : 0 ≤ x ∧ x ≤ 100 := by
  have hx2 : 100 - 100 / (1 + u / (if dn = 0 then eps12 else dn)) = x :=
    Option.some.inj hx
  subst hx2
  by_cases h0 : dn = 0
  · rw [if_pos h0]
    exact rsiVal_bounds u eps12 hu (by norm_num [eps12])
  · rw [if_neg h0]
    exact rsiVal_bounds u dn hu (lt_of_le_of_ne hdn (Ne.symm h0))

theorem zipWith_rsiCell_bounds : ∀ (l1 l2 : List ℚ),
    (∀ u ∈ l1, 0 ≤ u) → (∀ d ∈ l2, 0 ≤ d) →
    ∀ o ∈ List.zipWith rsiCell l1 l2, ∀ x : ℚ, o = some x → 0 ≤ x ∧ x ≤ 100 := by
  intro l1
  induction l1 with
  | nil => intro l2 _ _ o ho; simp at ho
  | cons u us ih =>
    intro l2 h1 h2 o ho x hx
    cases l2 with
    | nil => simp at ho
    | cons d ds =>
      simp only [List.zipWith_cons_cons] at ho
      rcases List.mem_cons.mp ho with rfl | ho2
      · exact rsiCell_bounds (h1 u (by simp)) (h2 d (by simp)) hx
      · exact ih ds (fun z hz => h1 z (by simp [hz]))
          (fun z hz => h2 z (by simp [hz])) o ho2 x hx

/-- C8.  Every defined value of the Wilder RSI (recursive EMA of gains and
losses with `alpha = 1/period`, zero denominator replaced by `1e-12`,
`RSI = 100 - 100/(1+RS)`) lies in [0, 100], for every input series. -/
theorem rsi_values_within_bounds (closes : List ℚ) (period : ℕ)
    (hp : 0 < period) :
    ∀ o ∈ rsi closes period, ∀ x : ℚ, o = some x → 0 ≤ x ∧ x ≤ 100 := by
  have hq : (0 : ℚ) < (period : ℚ) := by exact_mod_cast hp
  have ha0 : 0 ≤ 1 / (period : ℚ) := by positivity
  have ha1 : 1 / (period : ℚ) ≤ 1 := by
    rw [div_le_one hq]
    exact_mod_cast Nat.succ_le_of_lt hp
  cases closes with
  | nil => intro o ho; simp [rsi] at ho
  | cons c cs =>
    intro o ho x hx
    simp only [rsi] at ho
    rcases List.mem_cons.mp ho with rfl | ho2
    · exact absurd hx (by simp)
    · refine zipWith_rsiCell_bounds _ _ ?_ ?_ o ho2 x hx
      · apply ewmAdjFalse_nonneg _ ha0 ha1
        intro w hw
        rcases List.mem_map.mp hw with ⟨v, _, rfl⟩
        exact le_max_right v 0
      · apply ewmAdjFalse_nonneg _ ha0 ha1
        intro w hw
        rcases List.mem_map.mp hw with ⟨v, _, rfl⟩
        exact le_max_right (-v) 0

/-- Witness for C8: the defined RSI value of the constant series `[1, 1]` at
period 14 (both EMAs are zero, exercising the `1e-12` guard) is within
[0, 100]. -/
theorem rsi_values_within_bounds_witness :
    (0 : ℚ) ≤ 0 ∧ (0 : ℚ) ≤ 100 :=
  rsi_values_within_bounds [1, 1] 14 (by norm_num)
    (some 0) (by with_unfolding_all decide) 0 rfl

/-! ### Cache reconciler claims -/

theorem providerPath_calls (store : List Price) (fetch : FetchOutcome)
    (sym interval : String) :
    (providerPath store fetch sym interval).providerCalls = 1 := by
  unfold providerPath
  cases fetch with
  | netErr => rfl
  | ok hist =>
    dsimp only
    split
    · rfl
    · split <;> rfl

theorem getPrices_hit_eq (store : List Price) (now : Timestamp)
    (fetch : FetchOutcome) (symbol range_ : String)
    (h : cacheHit store (normSym symbol) (rangeToStart now range_) = true) :
    getPrices store now fetch symbol range_ "1d" =
      { result := .ok { withIndicators (normSym symbol)
          ((loadSince store (normSym symbol) (rangeToStart now range_)).map
            candleOfPrice) with source := "db" },
        store := store, providerCalls := 0 } := by
  unfold getPrices
  simp [h]

theorem getPrices_miss_eq (store : List Price) (now : Timestamp)
    (fetch : FetchOutcome) (symbol range_ interval : String)
    (h : (interval == "1d" &&
        cacheHit store (normSym symbol) (rangeToStart now range_)) = false) :
    getPrices store now fetch symbol range_ interval =
      providerPath store fetch (normSym symbol) interval := by
  unfold getPrices
  simp [h]

/-- C1 (amended: the cache-hit response is tagged `source="db"` — the literal
the code emits and §6 documents — not `"cache"`).  For a daily request, when
the store holds bars for the symbol at `ts ≥ start` and the earliest of them
is at most 2 days after `start`, the request is answered from the store with
`source="db"`, the provider adapter is never invoked and the store is
unchanged; otherwise the request goes to the provider (one call). -/
theorem getPrices_daily_cache_policy (store : List Price) (now : Timestamp)
    (fetch : FetchOutcome) (symbol range_ : String) :
    (cacheHit store (normSym symbol) (rangeToStart now range_) = true →
       (getPrices store now fetch symbol range_ "1d").result =
         .ok { withIndicators (normSym symbol)
             ((loadSince store (normSym symbol) (rangeToStart now range_)).map
               candleOfPrice) with source := "db" } ∧
       (getPrices store now fetch symbol range_ "1d").store = store ∧
       (getPrices store now fetch symbol range_ "1d").providerCalls = 0) ∧
    (cacheHit store (normSym symbol) (rangeToStart now range_) = false →
       (getPrices store now fetch symbol range_ "1d").providerCalls = 1) := by
  constructor
  · intro h
    rw [getPrices_hit_eq store now fetch symbol range_ h]
    exact ⟨rfl, rfl, rfl⟩
  · intro h
    rw [getPrices_miss_eq store now fetch symbol range_ "1d" (by simp [h])]
    exact providerPath_calls _ _ _ _

/-- Witness for C1: a one-bar store covering the requested year is served
with `source="db"`, untouched store, and zero provider calls, even though
the provider would error. -/
theorem getPrices_daily_cache_policy_witness :
    (getPrices [exBar "AAPL" 629] 1000 FetchOutcome.netErr "AAPL" "1y" "1d").result =
      .ok { withIndicators "AAPL"
          ((loadSince [exBar "AAPL" 629] "AAPL" 628).map candleOfPrice) with
          source := "db" } ∧
    (getPrices [exBar "AAPL" 629] 1000 FetchOutcome.netErr "AAPL" "1y" "1d").store =
      [exBar "AAPL" 629] ∧
    (getPrices [exBar "AAPL" 629] 1000 FetchOutcome.netErr "AAPL" "1y" "1d").providerCalls = 0 :=
  (getPrices_daily_cache_policy [exBar "AAPL" 629] 1000 FetchOutcome.netErr
    "AAPL" "1y").1 (by with_unfolding_all decide)

/-- C1 counterexample: on a concrete cache hit the payload's `source` field
is `"db"`, not the `"cache"` the claim states. -/
theorem getPrices_cache_source_not_cache :
    (getPrices [exBar "AAPL" 629] 1000 (FetchOutcome.ok []) "AAPL" "1y" "1d").result.map
        PricesPayload.source = .ok "db" ∧ ("db" : String) ≠ "cache" := by
  constructor
  · with_unfolding_all rfl
  · decide

/-- C6.  On a cache miss (or non-daily interval) the provider adapter is
invoked exactly once; the request fails with UnknownSymbol iff the provider
returned an empty frame, and a network/timeout failure of the provider is
surfaced as ProviderUnavailable instead. -/
theorem getPrices_miss_single_fetch_errors (store : List Price)
    (now : Timestamp) (fetch : FetchOutcome) (symbol range_ interval : String)
    (hmiss : (interval == "1d" &&
        cacheHit store (normSym symbol) (rangeToStart now range_)) = false) :
    (getPrices store now fetch symbol range_ interval).providerCalls = 1 ∧
    (∀ bars, fetch = .ok bars →
       ((getPrices store now fetch symbol range_ interval).result =
          .error .unknownSymbol ↔ bars = [])) ∧
    (fetch = .netErr →
       (getPrices store now fetch symbol range_ interval).result =
         .error .providerUnavailable) := by
  rw [getPrices_miss_eq store now fetch symbol range_ interval hmiss]
  refine ⟨providerPath_calls _ _ _ _, ?_, ?_⟩
  · intro bars hb
    subst hb
    unfold providerPath
    by_cases he : bars.isEmpty
    · simp [he, List.isEmpty_iff.mp he]
    · have hne : bars ≠ [] := by simpa [List.isEmpty_iff] using he
      cases hm : parseBars (normSym symbol) bars with
      | none => simp [he, hm, hne]
      | some rows => simp [he, hm, hne]
  · intro hn
    subst hn
    rfl

/-- Witness for C6: an empty provider response for an unknown symbol on a
fresh store yields UnknownSymbol after exactly one provider call. -/
theorem getPrices_miss_single_fetch_errors_witness :
    (getPrices [] 1000 (FetchOutcome.ok []) "ZZZ" "1y" "1d").result =
      .error .unknownSymbol ∧
    (getPrices [] 1000 (FetchOutcome.ok []) "ZZZ" "1y" "1d").providerCalls = 1 := by
  have h := getPrices_miss_single_fetch_errors [] 1000 (FetchOutcome.ok [])
    "ZZZ" "1y" "1d" (by with_unfolding_all decide)
  exact ⟨(h.2.1 [] rfl).mpr rfl, h.1⟩

theorem parseBars_eq_none_iff {sym : String} {bars : List RawBar} :
    parseBars sym bars = none ↔ ∃ b ∈ bars, priceOfRaw sym b = none := by
  induction bars with
  | nil => simp [parseBars]
  | cons b bs ih =>
    cases hp : priceOfRaw sym b with
    | none =>
      simp only [parseBars, hp, bind, Option.none_bind]
      constructor
      · intro _; exact ⟨b, by simp, hp⟩
      · intro _; trivial
    | some p =>
      cases hps : parseBars sym bs with
      | none =>
        simp only [parseBars, hp, hps, bind, Option.some_bind, Option.none_bind]
        constructor
        · intro _
          rcases ih.mp hps with ⟨b2, hb2, h2⟩
          exact ⟨b2, by simp [hb2], h2⟩
        · intro _; trivial
      | some ps =>
        simp only [parseBars, hp, hps, bind, Option.some_bind]
        constructor
        · intro hh; cases hh
        · rintro ⟨b2, hb2, h2⟩
          rcases List.mem_cons.mp hb2 with rfl | hb3
          · rw [hp] at h2; cases h2
          · rw [ih.mpr ⟨b2, hb3, h2⟩] at hps; cases hps

/-- C7 (amended): a provider bar whose OHLC fields cannot all be parsed as
numeric is FATAL to the daily request — the request raises the conversion
error and none of the fetched bars is persisted; only when every bar parses
are they all upserted and the request successful.  There is no per-bar
skip. -/
theorem getPrices_malformed_bar_aborts (store : List Price) (now : Timestamp)
    (symbol range_ : String) (bars : List RawBar)
    (hmiss : ((("1d" : String) == "1d") &&
        cacheHit store (normSym symbol) (rangeToStart now range_)) = false)
    (hne : bars ≠ []) :
    ((∃ b ∈ bars, priceOfRaw (normSym symbol) b = none) →
       (getPrices store now (.ok bars) symbol range_ "1d").result =
           .error .badBar ∧
       (getPrices store now (.ok bars) symbol range_ "1d").store = store) ∧
    (∀ rows, parseBars (normSym symbol) bars = some rows →
       (getPrices store now (.ok bars) symbol range_ "1d").store =
           upsertRows store rows ∧
       ∃ p, (getPrices store now (.ok bars) symbol range_ "1d").result = .ok p) := by
  rw [getPrices_miss_eq store now (.ok bars) symbol range_ "1d" hmiss]
  have hbe : bars.isEmpty = false := by simpa [List.isEmpty_iff] using hne
  constructor
  · intro hbad
    have hm : parseBars (normSym symbol) bars = none :=
      parseBars_eq_none_iff.mpr hbad
    unfold providerPath
    simp [hbe, hm]
  · intro rows hm
    unfold providerPath
    simp [hbe, hm]

/-- Witness for C7 (amended), all-parse side: a single well-formed bar is
persisted and the request succeeds. -/
theorem getPrices_malformed_bar_aborts_witness :
    (getPrices [] 1000 (.ok [rawGood]) "AAPL" "1y" "1d").store =
      upsertRows [] [parsedGood] ∧
    ∃ p, (getPrices [] 1000 (.ok [rawGood]) "AAPL" "1y" "1d").result = .ok p :=
  (getPrices_malformed_bar_aborts [] 1000 "AAPL" "1y" [rawGood]
      (by with_unfolding_all decide) (by simp)).2
    [parsedGood] (by with_unfolding_all decide)

/-- C7 counterexample: one good and one malformed bar from the provider on a
fresh store — the request FAILS and even the good bar is not persisted,
contradicting the claimed skip-and-continue. -/
theorem getPrices_malformed_bar_fatal :
    (getPrices [] 1000 (.ok [rawGood, rawBad]) "AAPL" "1y" "1d").result =
      .error .badBar ∧
    (getPrices [] 1000 (.ok [rawGood, rawBad]) "AAPL" "1y" "1d").store = [] := by
  constructor <;> with_unfolding_all rfl

/-! ### Scorer gate and feature-table claims -/

/-- C2 (amended: after `_ensure_history`, the failure gates actually coded
are `len(df) < 220` for swing and `len(df) < 300` for long — not the 260/520
row minimums the provisioning step requests).  When the history is below
these gates the scorer raises its insufficient-data error at the raw check,
before any feature is computed. -/
theorem score_raw_gate_thresholds (store : List Price) (fetch : FetchOutcome)
    (symbol : String) :
    (∀ er, ensureHistory store fetch symbol 260 = .ok er → er.df.length < 220 →
       scoreSwingPrep store fetch symbol = .error .notEnoughData) ∧
    (∀ er, ensureHistory store fetch symbol 520 = .ok er → er.df.length < 300 →
       scoreLongPrep store fetch symbol = .error .notEnoughData) := by
  constructor
  · intro er he hl
    unfold scoreSwingPrep
    rw [he]
    simp [hl]
  · intro er he hl
    unfold scoreLongPrep
    rw [he]
    simp [hl]

/-- Witness for C2 (amended): a 10-row store with an empty provider response
fails the raw gate for both swing and long. -/
theorem score_raw_gate_thresholds_witness :
    scoreSwingPrep store10 (FetchOutcome.ok []) "AAPL" = .error .notEnoughData ∧
    scoreLongPrep store10 (FetchOutcome.ok []) "AAPL" = .error .notEnoughData := by
  have h := score_raw_gate_thresholds store10 (FetchOutcome.ok []) "AAPL"
  constructor
  · exact h.1 { df := loadOhlc store10 "AAPL", store := store10, calls := 1 }
      (by with_unfolding_all decide) (by with_unfolding_all decide)
  · exact h.2 { df := loadOhlc store10 "AAPL", store := store10, calls := 1 }
      (by with_unfolding_all decide) (by with_unfolding_all decide)

/-! Support for the C2 counterexample: the 250-row constant-price store
passes both of `score_swing`'s gates.  The table length is established
symbolically, column by column, rather than by evaluation. -/

theorem length_filterMap_eq_countP {α β : Type} (f : α → Option β) (l : List α) :
    (l.filterMap f).length = l.countP (fun a => (f a).isSome) := by
  induction l with
  | nil => rfl
  | cons a l ih =>
    rw [List.filterMap_cons, List.countP_cons]
    cases hfa : f a <;> simp [hfa, ih]

theorem store250_closes : store250.map Price.close = List.replicate 250 (1 : ℚ) := by
  unfold store250
  rw [List.map_map]
  have h : (Price.close ∘ exBar "AAPL") = fun _ => (1 : ℚ) := rfl
  rw [h, List.map_const', List.length_range]

theorem store250_length : store250.length = 250 := by
  simp [store250]

theorem store250_cell {i : ℕ} (hi : i < 250) :
    store250[i]? = some (exBar "AAPL" i) := by
  unfold store250
  rw [List.getElem?_map, List.getElem?_range hi]
  rfl

theorem insertByTs_of_le (r : Price) (l : List Price)
    (h : ∀ x ∈ l, r.ts ≤ x.ts) : insertByTs r l = r :: l := by
  cases l with
  | nil => rfl
  | cons a as =>
    unfold insertByTs
    rw [if_pos (h a (by simp))]

theorem sortByTs_of_sorted (l : List Price)
    (h : l.Pairwise (fun a b => a.ts ≤ b.ts)) : sortByTs l = l := by
  induction l with
  | nil => rfl
  | cons a as ih =>
    rcases List.pairwise_cons.mp h with ⟨ha, htail⟩
    show insertByTs a (sortByTs as) = a :: as
    rw [ih htail, insertByTs_of_le a as ha]

theorem store250_sorted : store250.Pairwise (fun a b => a.ts ≤ b.ts) := by
  unfold store250
  rw [List.pairwise_map]
  refine (List.pairwise_lt_range 250).imp ?_
  intro i j hij
  show (i : Int) ≤ (j : Int)
  exact_mod_cast le_of_lt hij

theorem loadOhlc_store250 : loadOhlc store250 "AAPL" = store250 := by
  have hf : store250.filter (fun r => r.symbol == pyUpper "AAPL") = store250 := by
    apply List.filter_eq_self.mpr
    intro r hr
    have hsym : r.symbol = "AAPL" := by
      unfold store250 at hr
      rcases List.mem_map.mp hr with ⟨i, _, rfl⟩
      rfl
    rw [hsym]
    decide
  unfold loadOhlc
  rw [hf, sortByTs_of_sorted _ store250_sorted]

theorem ensureHistory_store250 :
    ensureHistory store250 (FetchOutcome.ok []) "AAPL" 260 =
      .ok { df := store250, store := store250, calls := 1 } := by
  unfold ensureHistory
  rw [loadOhlc_store250]
  rw [if_neg (by rw [store250_length]; omega)]
  rfl

theorem pctChange_replicate_cell {k i : ℕ} (hk : 0 < k) (hki : k ≤ i)
    (hi : i < 250) :
    (pctChange (List.replicate 250 (1 : ℚ)) k)[i]? = some (some 0) := by
  unfold pctChange
  rw [List.length_replicate, List.getElem?_map, List.getElem?_range hi]
  simp only [Option.map_some']
  rw [if_pos ⟨hki, hk⟩]
  rw [List.getElem?_replicate, List.getElem?_replicate, if_pos hi,
    if_pos (by omega : i - k < 250)]
  norm_num

theorem sma_replicate_cell {w i : ℕ} (hw0 : 0 < w) (hw : w ≤ i + 1)
    (hi : i < 250) :
    (sma (List.replicate 250 (1 : ℚ)) w)[i]? = some (some 1) := by
  unfold sma
  rw [List.length_replicate, List.getElem?_map, List.getElem?_range hi]
  simp only [Option.map_some']
  rw [if_pos hw]
  rw [List.take_replicate, List.drop_replicate]
  rw [show min (i + 1) 250 - (i + 1 - w) = w by omega]
  rw [List.sum_replicate]
  have hwq : (w : ℚ) ≠ 0 := Nat.cast_ne_zero.mpr (Nat.pos_iff_ne_zero.mp hw0)
  rw [nsmul_eq_mul, mul_one, div_self hwq]

theorem relCol_replicate_cell {w i : ℕ} (hw0 : 0 < w) (hw : w ≤ i + 1)
    (hi : i < 250) :
    (relCol (List.replicate 250 (1 : ℚ)) (sma (List.replicate 250 1) w))[i]? =
      some (some 0) := by
  unfold relCol
  rw [List.getElem?_zipWith, List.getElem?_replicate, if_pos hi,
    sma_replicate_cell hw0 hw hi]
  norm_num

theorem diffs_replicate (c : ℚ) : ∀ m, diffs (List.replicate (m + 1) c) = List.replicate m 0 := by
  intro m
  induction m with
  | zero => rfl
  | succ m ih =>
    show diffs (c :: c :: List.replicate m c) = 0 :: List.replicate m 0
    rw [diffs, sub_self]
    exact congrArg (List.cons 0) ih

theorem ewmRec_zeros (a : ℚ) : ∀ m, ewmRec a 0 (List.replicate m 0) = List.replicate m 0 := by
  intro m
  induction m with
  | zero => rfl
  | succ m ih =>
    show ((1 - a) * 0 + a * 0) :: ewmRec a ((1 - a) * 0 + a * 0) (List.replicate m 0) =
      0 :: List.replicate m 0
    rw [show (1 - a) * 0 + a * 0 = (0 : ℚ) by ring]
    rw [ih]

theorem ewmAdjFalse_zeros (a : ℚ) : ∀ m,
    ewmAdjFalse a (List.replicate m 0) = List.replicate m 0 := by
  intro m
  cases m with
  | zero => rfl
  | succ m =>
    show (0 : ℚ) :: ewmRec a 0 (List.replicate m 0) = 0 :: List.replicate m 0
    rw [ewmRec_zeros]

theorem rsiCell_zero : rsiCell 0 0 = some 0 := by
  unfold rsiCell
  rw [if_pos rfl]
  show some (100 - 100 / (1 + 0 / eps12)) = some 0
  rw [zero_div]
  norm_num

theorem zipWith_rsiCell_zeros : ∀ m,
    List.zipWith rsiCell (List.replicate m 0) (List.replicate m 0) =
      List.replicate m (some 0) := by
  intro m
  induction m with
  | zero => rfl
  | succ m ih =>
    show rsiCell 0 0 :: List.zipWith rsiCell (List.replicate m 0) (List.replicate m 0) =
      some 0 :: List.replicate m (some 0)
    rw [rsiCell_zero, ih]

theorem rsi_replicate :
    rsi (List.replicate 250 (1 : ℚ)) 14 = none :: List.replicate 249 (some 0) := by
  have hd : diffs (List.replicate 250 (1 : ℚ)) = List.replicate 249 0 := diffs_replicate 1 249
  have hup : (List.replicate 249 (0 : ℚ)).map (fun x => max x 0) = List.replicate 249 0 := by
    rw [List.map_replicate]
    norm_num
  have hdown : (List.replicate 249 (0 : ℚ)).map (fun x => max (-x) 0) = List.replicate 249 0 := by
    rw [List.map_replicate]
    norm_num
  show rsi (1 :: List.replicate 249 (1 : ℚ)) 14 = none :: List.replicate 249 (some 0)
  unfold rsi
  simp only []
  rw [show diffs (1 :: List.replicate 249 (1 : ℚ)) = List.replicate 249 0 from hd]
  rw [hup, hdown, ewmAdjFalse_zeros, zipWith_rsiCell_zeros]

theorem rsi_replicate_cell {i : ℕ} (h1 : 1 ≤ i) (hi : i < 250) :
    (rsi (List.replicate 250 (1 : ℚ)) 14)[i]? = some (some 0) := by
  rw [rsi_replicate]
  obtain ⟨j, rfl⟩ : ∃ j, i = j + 1 := ⟨i - 1, by omega⟩
  rw [List.getElem?_cons_succ, List.getElem?_replicate, if_pos (by omega)]

theorem pctChange_replicate_length :
    (pctChange (List.replicate 250 (1 : ℚ)) 1).length = 250 := by
  unfold pctChange
  rw [List.length_map, List.length_range, List.length_replicate]

theorem annVolSq_replicate_cell {i : ℕ} (h20 : 20 ≤ i) (hi : i < 250) :
    ∃ v, (annVolSq (pctChange (List.replicate 250 (1 : ℚ)) 1) 20)[i]? =
      some (some v) := by
  unfold annVolSq
  rw [pctChange_replicate_length, List.getElem?_map, List.getElem?_range hi]
  simp only [Option.map_some']
  have hall : (((pctChange (List.replicate 250 (1 : ℚ)) 1).take (i + 1)).drop
      (i + 1 - 20)).all Option.isSome = true := by
    apply List.all_eq_true.mpr
    intro x hx
    rcases List.mem_iff_getElem.mp hx with ⟨k, hk, hxk⟩
    have h1 : (((pctChange (List.replicate 250 (1 : ℚ)) 1).take (i + 1)).drop
        (i + 1 - 20))[k]? = some x := by
      rw [List.getElem?_eq_getElem hk, hxk]
    rw [List.getElem?_drop, List.getElem?_take] at h1
    by_cases hlt : i + 1 - 20 + k < i + 1
    · rw [if_pos hlt] at h1
      rw [@pctChange_replicate_cell 1 (i + 1 - 20 + k) (by norm_num) (by omega)
        (by omega : i + 1 - 20 + k < 250)] at h1
      cases h1
      rfl
    · rw [if_neg hlt] at h1
      cases h1
  have hwin : windowAt (pctChange (List.replicate 250 (1 : ℚ)) 1) i 20 =
      some ((((pctChange (List.replicate 250 (1 : ℚ)) 1).take (i + 1)).drop
        (i + 1 - 20)).reduceOption) := by
    unfold windowAt
    rw [if_pos (by omega : 20 ≤ i + 1)]
    simp only [hall, if_true]
  rw [hwin]
  exact ⟨_, rfl⟩

theorem swingTable_store250_length : 200 ≤ (swingTable store250).length := by
  unfold swingTable
  simp only [store250_closes, store250_length]
  rw [length_filterMap_eq_countP]
  refine le_trans
    (show (200 : ℕ) ≤ List.countP (fun i => decide (49 ≤ i)) (List.range 250)
      by decide)
    (List.countP_mono_left ?_)
  intro i hmem hdec
  have hi : i < 250 := List.mem_range.mp hmem
  have h49 : 49 ≤ i := of_decide_eq_true hdec
  rw [store250_cell hi]
  rw [pctChange_replicate_cell (by norm_num) (by omega : 5 ≤ i) hi]
  rw [pctChange_replicate_cell (by norm_num) (by omega : 10 ≤ i) hi]
  rw [pctChange_replicate_cell (by norm_num) (by omega : 20 ≤ i) hi]
  rw [rsi_replicate_cell (by omega) hi]
  rw [relCol_replicate_cell (by norm_num) (by omega : 20 ≤ i + 1) hi]
  rw [relCol_replicate_cell (by norm_num) (by omega : 50 ≤ i + 1) hi]
  rcases annVolSq_replicate_cell (by omega : 20 ≤ i) hi with ⟨v, hv⟩
  rw [hv]
  rfl

/-- C2 counterexample: a store holding 250 AAPL rows — fewer than the
claimed 260-row swing minimum — with an empty provider response.  The swing
scorer does NOT fail with insufficient data: it passes both gates and
reaches the model fit. -/
theorem score_swing_250_rows_succeeds :
    (loadOhlc store250 "AAPL").length = 250 ∧
    (scoreSwingPrep store250 (FetchOutcome.ok []) "AAPL").toOption.isSome = true := by
  constructor
  · rw [loadOhlc_store250, store250_length]
  · unfold scoreSwingPrep
    rw [ensureHistory_store250]
    have hg1 : (store250.isEmpty || decide (store250.length < 220)) = false := by
      rw [store250_length]
      rw [show store250.isEmpty = false by
        unfold store250
        rw [List.isEmpty_eq_false_iff_exists_mem]
        exact ⟨exBar "AAPL" 0, List.mem_map.mpr ⟨0, by simp, rfl⟩⟩]
      rfl
    simp only [hg1, Bool.false_eq_true, if_false]
    rw [if_neg (by have := swingTable_store250_length; omega)]
    rfl

/-- C3 (code bug): the final rows whose forward label cannot be computed are
NOT dropped before fitting.  `(close.shift(-k) > close)` compares NaN as
False and `astype(int)` turns that into label 0, which `dropna()` keeps.  On
30 constant daily bars, the day feature/label table (the `d.dropna()` result
`score_day` fits on) still ends with the final bar (ts 29) carrying the
fabricated label 0 — 10 retained rows where the documented behavior would
drop the last one. -/
theorem score_day_retains_final_unlabeled_row :
    ((dayTable bars30).map (fun r => (r.ts, r.y))).getLast? = some (29, 0) ∧
    (dayTable bars30).length = 10 := by
  constructor
  · with_unfolding_all rfl
  · with_unfolding_all rfl

/-! ### Symbol normalization -/

/-- C10 (amended: `get_prices` normalizes the symbol with `upper()` followed
by `strip()`, while the agent's store operations and payload use `upper()`
alone; every query, write and payload uses its operation's normal form, so
each stored row's symbol is `upper(strip)`-normalized — but for inputs with
surrounding whitespace these differ from the plain upper-cased input). -/
theorem symbol_normalization_forms :
    (∀ store now fetch symbol range_ interval,
       (∀ r ∈ (getPrices store now fetch symbol range_ interval).store,
          r ∈ store ∨ r.symbol = normSym symbol) ∧
       (∀ p, (getPrices store now fetch symbol range_ interval).result = .ok p →
          p.symbol = normSym symbol)) ∧
    (∀ store symbol bars store2,
       upsertPrices store symbol bars = .ok store2 →
       ∀ r ∈ store2, r ∈ store ∨ r.symbol = pyUpper symbol) ∧
    (∀ store symbol r, r ∈ loadOhlc store symbol → r.symbol = pyUpper symbol) ∧
    (∀ symbol probUp vol volSeries features,
       (finalPayload symbol probUp vol volSeries features).symbol =
         pyUpper symbol) := by
  refine ⟨?_, ?_, ?_, ?_⟩
  · intro store now fetch symbol range_ interval
    by_cases h : (interval == "1d" &&
        cacheHit store (normSym symbol) (rangeToStart now range_)) = true
    · have hsplit : (interval == "1d") = true ∧
          cacheHit store (normSym symbol) (rangeToStart now range_) = true := by
        simpa [Bool.and_eq_true] using h
      have hint : interval = "1d" := eq_of_beq hsplit.1
      subst hint
      rw [getPrices_hit_eq store now fetch symbol range_ hsplit.2]
      constructor
      · intro r hr
        exact Or.inl hr
      · intro p hp
        have h2 := Except.ok.inj hp
        rw [← h2]
        rfl
    · have h2 : (interval == "1d" &&
          cacheHit store (normSym symbol) (rangeToStart now range_)) = false := by
        revert h
        cases interval == "1d" &&
          cacheHit store (normSym symbol) (rangeToStart now range_) <;> simp
      rw [getPrices_miss_eq store now fetch symbol range_ interval h2]
      unfold providerPath
      cases fetch with
      | netErr =>
        constructor
        · intro r hr
          exact Or.inl hr
        · intro p hp
          cases hp
      | ok hist =>
        by_cases he : hist.isEmpty
        · simp only [he, if_true]
          constructor
          · intro r hr
            exact Or.inl hr
          · intro p hp
            cases hp
        · have he2 : hist.isEmpty = false := by
            revert he; cases hist.isEmpty <;> simp
          cases hm : parseBars (normSym symbol) hist with
          | none =>
            simp only [he2, Bool.false_eq_true, if_false, hm]
            constructor
            · intro r hr
              exact Or.inl hr
            · intro p hp
              cases hp
          | some rows =>
            simp only [he2, Bool.false_eq_true, if_false, hm]
            constructor
            · intro r hr
              by_cases hi : (interval == "1d") = true
              · rw [if_pos hi] at hr
                rcases mem_upsertRows hr with h3 | h3
                · exact Or.inl h3
                · exact Or.inr (parseBars_symbol hm r h3)
              · rw [if_neg hi] at hr
                exact Or.inl hr
            · intro p hp
              have h3 := Except.ok.inj hp
              rw [← h3]
              rfl
  · intro store symbol bars store2 h r hr
    unfold upsertPrices at h
    by_cases he : bars.isEmpty
    · simp only [he, if_true, Except.ok.injEq] at h
      subst h
      exact Or.inl hr
    · have he2 : bars.isEmpty = false := by
        revert he; cases bars.isEmpty <;> simp
      cases hm : parseBars (pyUpper symbol) bars with
      | none => simp [he2, hm] at h
      | some rows =>
        simp only [he2, Bool.false_eq_true, if_false, hm,
          Except.ok.injEq] at h
        subst h
        rcases mem_upsertRows hr with h3 | h3
        · exact Or.inl h3
        · exact Or.inr (parseBars_symbol hm r h3)
  · intro store symbol r hr
    exact mem_loadOhlc_symbol hr
  · intro symbol probUp vol volSeries features
    rfl

/-- Witness for C10 (amended): a stored AAPL row loaded through
`_load_ohlc("aapl")` carries the upper-cased symbol. -/
theorem symbol_normalization_forms_witness :
    (exBar "A" 1).symbol = pyUpper "a" :=
  symbol_normalization_forms.2.2.1 [exBar "A" 1] "a" (exBar "A" 1)
    (by with_unfolding_all decide)

/-- C10 counterexample: for input " a" (leading whitespace), `get_prices`
serves and reports symbol "A" — upper() AND strip() — while the plain
upper-cased form of the input is " A". -/
theorem getPrices_symbol_not_plain_upper :
    (getPrices [exBar "A" 629] 1000 (FetchOutcome.ok []) " a" "1y" "1d").result.map
        PricesPayload.symbol = .ok "A" ∧ pyUpper " a" ≠ "A" := by
  constructor
  · with_unfolding_all rfl
  · decide

end FinDash
